import Mathlib

/-!
Verification of the economic-indicator dashboard pipeline (`src/app.py`).

The file shallowly embeds the data-fetch-and-reshape pipeline of the source:

* `fetch_wb_data` — the cached HTTP fetch (`src/app.py` lines 17-38): on a
  status-200 response whose JSON body has more than one element it returns the
  element at index 1, otherwise `None`.
* `normalize` — the tabular normalization (`src/app.py` lines 120-122):
  `pd.to_numeric(df['date'])` (strict: an unparseable year aborts the whole
  batch with an exception) followed by
  `pd.to_numeric(df['value'], errors='coerce')` (per-row: unparseable or
  absent values become NaN, modelled as `none`).
* `estimate` / `polyfit1` — the per-country trend block
  (`src/app.py` lines 134-148): `np.polyfit(dates, values.fillna(0), 1)`
  and `np.poly1d` evaluated at the observed years.
* `rawSeries` / `trendTraces` / `assembleChart` — the chart assembly
  (`px.line` with `color='countryiso3code'`, lines 125-132, plus the
  dashed trend traces appended in the `show_trend` loop).
* `runPipeline` — the top-level request cycle (lines 106-160) with its
  `if not selected_countries` warning, the `if data:` truthiness guard and
  the blanket `try/except` that converts any exception into one error box.

Machine numbers are modelled as exact rationals (`ℚ`); "missing" values are
`Option ℚ` with `none` for NaN.
-/

namespace EconDash

/-- A JSON scalar as it may appear in a record's `value` field: a number,
a string, or `null` (also standing for an absent field, which pandas turns
into NaN exactly like `null`). -/
inductive JsonVal where
  | num (q : ℚ)
  | str (s : String)
  | null
deriving DecidableEq, Repr

/-- One raw record of the World Bank response's records array.  Per the API
shape the country code is a string, the date is the year as a string, and the
value is numeric, string or null. -/
structure RawRecord where
  countryiso3code : String
  date : String
  value : JsonVal
deriving DecidableEq, Repr

/-- One element of the parsed JSON response body: either a records array or
some other JSON value, of which the pipeline only ever observes the
truthiness (`other true` is e.g. a non-empty metadata object). -/
inductive JsonElem where
  | records (rs : List RawRecord)
  | other (truthy : Bool)
deriving DecidableEq, Repr

/-- An HTTP response as the fetch sees it: a status code and the parsed JSON
body, a list of elements. -/
structure HttpResponse where
  status_code : Nat
  body : List JsonElem
deriving DecidableEq, Repr

/-- `fetch_wb_data`, the result computation of `src/app.py` lines 33-38:
`if response.status_code == 200: data = response.json(); if len(data) > 1:
return data[1]` and `return None` otherwise.  `none` is the `None`
("NoData") outcome. -/
def fetch_wb_data (resp : HttpResponse) : Option JsonElem :=
  if resp.status_code = 200 ∧ 1 < resp.body.length then resp.body.get? 1
  else none

/-- Python truthiness of the fetch result as used by `if data:` in
`src/app.py` line 118: `None` and the empty list are falsy, a non-empty list
is truthy, other JSON values carry their own truthiness. -/
def pyTruthy : Option JsonElem → Bool
  | none => false
  | some (.records rs) => !rs.isEmpty
  | some (.other b) => b

/-- Parse a decimal number the way `pd.to_numeric` parses a string cell:
optional sign, digits, optional fractional part ("2000", "-4.5", "1.",
".5").  `none` models a parse failure.  (Exponent notation is not modelled;
no claim exercises it.) -/
def parseDecimal (s : String) : Option ℚ :=
  let natOfDigits : List Char → ℚ :=
    fun l => ((l.foldl (fun a c => 10 * a + (c.toNat - 48)) 0 : Nat) : ℚ)
  let go : List Char → Option ℚ := fun cs =>
    let ip := cs.takeWhile Char.isDigit
    let rest := cs.dropWhile Char.isDigit
    match rest with
    | [] => if ip.isEmpty then none else some (natOfDigits ip)
    | '.' :: frac =>
        if frac.all Char.isDigit ∧ ¬(ip.isEmpty ∧ frac.isEmpty) then
          some (natOfDigits ip + natOfDigits frac / (10 : ℚ) ^ frac.length)
        else none
    | _ => none
  match s.toList with
  | '-' :: cs => (go cs).map Neg.neg
  | '+' :: cs => go cs
  | cs => go cs

/-- `pd.to_numeric(·, errors='coerce')` on one `value` cell: numbers pass
through, `null`/absent becomes NaN (`none`), strings are parsed and become
NaN on failure. -/
def toNumericCoerce : JsonVal → Option ℚ
  | .num q => some q
  | .str s => parseDecimal s
  | .null => none

/-- One normalized row: country code, numeric year, and a value that is a
number or "missing" (`none`, pandas NaN). -/
structure Observation where
  country : String
  year : ℚ
  value : Option ℚ
deriving DecidableEq, Repr

/-- The normalization of `src/app.py` lines 120-122:
`df['date'] = pd.to_numeric(df['date'])` (strict — one unparseable year
raises, aborting the whole batch, modelled by `none`) and
`df['value'] = pd.to_numeric(df['value'], errors='coerce')` (per-row
coercion, failures become `none` in that row only).  Row order is the
source record order; nothing is sorted or deduplicated. -/
def normalize : List RawRecord → Option (List Observation)
  | [] => some []
  | r :: rs =>
    (parseDecimal r.date).bind (fun y =>
      (normalize rs).map
        (fun t => ⟨r.countryiso3code, y, toNumericCoerce r.value⟩ :: t))

/-- The rows of the table whose country code equals `c`, in table order:
`df[df['countryiso3code'] == country]`. -/
def rowsFor (t : List Observation) (c : String) : List Observation :=
  t.filter (fun o => o.country = c)

/-- Distinct values of a list in first-appearance order: how
`px.line(color=...)` groups rows into one trace per distinct color value.
(Later duplicates of the head are dropped after the recursive call, which
keeps the recursion structural.) -/
def firstUniques : List String → List String
  | [] => []
  | c :: rest => c :: (firstUniques rest).filter (fun x => x ≠ c)

/-- The distinct country codes present in the table, in first-appearance
order. -/
def distinctCountries (t : List Observation) : List String :=
  firstUniques (t.map (fun o => o.country))

/-- `np.polyfit(xs, ys, 1)` over exact rationals, returning
`(slope, intercept)`.

* With at least two distinct x-values this is the ordinary least-squares
  line from the normal equations.
* With exactly one point `(x, y)`, `x ≠ 0`: numpy scales the Vandermonde
  columns `[x, 1]` to unit norm and `lstsq` (SVD) returns the minimum-norm
  solution of the underdetermined system, which after unscaling is
  `(y / (2x), y / 2)` — a line through `(x, y)` but not horizontal.
* Remaining rank-deficient cases (an empty list, on which numpy raises; a
  single point at `x = 0`; several points sharing one x-value, where numpy
  returns an SVD minimum-norm solution) are left unmodelled (`none`); no
  claim depends on their numeric output. -/
def polyfit1 (pts : List (ℚ × ℚ)) : Option (ℚ × ℚ) :=
  match pts with
  | [] => none
  | [(x, y)] => if x = 0 then none else some (y / (2 * x), y / 2)
  | _ =>
    let n : ℚ := pts.length
    let sx := (pts.map Prod.fst).sum
    let sy := (pts.map Prod.snd).sum
    let sxx := (pts.map (fun p => p.1 * p.1)).sum
    let sxy := (pts.map (fun p => p.1 * p.2)).sum
    let d := n * sxx - sx * sx
    if d = 0 then none
    else some ((n * sxy - sx * sy) / d, (sy * sxx - sx * sxy) / d)

/-- The `(x, y)` input handed to `np.polyfit` for one country:
`(country_data['date'], country_data['value'].fillna(0))` — the filtered
rows' years paired with their values with missing replaced by `0`
(`src/app.py` line 138). -/
def fitPoints (t : List Observation) (c : String) : List (ℚ × ℚ) :=
  (rowsFor t c).map (fun o => (o.year, o.value.getD 0))

/-- Evaluate the fitted polynomial `np.poly1d(z)` at one x; `none` when the
fit itself is in an unmodelled degenerate case. -/
def predict : Option (ℚ × ℚ) → ℚ → Option ℚ
  | none, _ => none
  | some (m, b), x => some (m * x + b)

/-- A per-country trend line: the fitted `(slope, intercept)` (when the fit
is modelled) and one predicted point per observed year of that country, in
filtered row order. -/
structure TrendLine where
  country : String
  fit : Option (ℚ × ℚ)
  points : List (ℚ × Option ℚ)
deriving DecidableEq, Repr

/-- The TrendEstimator of the source's trend block (`src/app.py` lines
136-143): filter the table to `c`; if nothing matches there is no trend
(`none`); otherwise fit `polyfit1` to the year/zero-filled-value pairs and
predict one value per observed year. -/
def estimate (t : List Observation) (c : String) : Option TrendLine :=
  match rowsFor t c with
  | [] => none
  | _ :: _ =>
    let fit := polyfit1 (fitPoints t c)
    some ⟨c, fit, (rowsFor t c).map (fun o => (o.year, predict fit o.year))⟩

/-- One series of the assembled chart: the country code it was generated
from (`key`), the displayed name, the ordered `(x, y)` points (`y = none`
is a missing value, a gap in the plot), and the dashed style flag
distinguishing trend traces from raw traces. -/
structure Series where
  key : String
  name : String
  pts : List (ℚ × Option ℚ)
  dashed : Bool
deriving DecidableEq, Repr

/-- The static country catalog of `src/app.py` lines 55-70. -/
def countriesCatalog : List (String × String) :=
  [("USA", "United States"), ("CHN", "China"), ("JPN", "Japan"),
   ("DEU", "Germany"), ("GBR", "United Kingdom"), ("FRA", "France"),
   ("IND", "India"), ("BRA", "Brazil"), ("CAN", "Canada"),
   ("AUS", "Australia"), ("KOR", "South Korea"), ("RUS", "Russia"),
   ("ZAF", "South Africa"), ("MEX", "Mexico")]

/-- `countries[country]`: catalog lookup; `none` models the `KeyError`
raised on a code absent from the catalog. -/
def countryLabel (c : String) : Option String :=
  (countriesCatalog.filter (fun p => p.1 = c)).head?.map Prod.snd

/-- The raw traces produced by
`px.line(df, x='date', y='value', color='countryiso3code')`: one solid
trace per distinct country code in first-appearance order, keyed and named
by the code, carrying that country's rows in table order with missing
values left as gaps. -/
def rawSeries (t : List Observation) : List Series :=
  (distinctCountries t).map
    (fun c => ⟨c, c, (rowsFor t c).map (fun o => (o.year, o.value)), false⟩)

/-- The trend trace contributed by one selected country (`src/app.py` lines
135-148): skip the country when its filtered rows are empty
(`some none`); otherwise name the dashed trace `countries[country] +
" trend"` — the outer `none` models the `KeyError` when the label is
missing — with the estimator's predicted points. -/
def trendTraceFor (t : List Observation) (c : String) : Option (Option Series) :=
  match estimate t c with
  | none => some none
  | some tl =>
    (countryLabel c).map (fun lab => some ⟨c, lab ++ " trend", tl.points, true⟩)

/-- All trend traces, one loop iteration per selected country in selection
order; `none` propagates a `KeyError` from any iteration. -/
def trendTraces (t : List Observation) : List String → Option (List Series)
  | [] => some []
  | c :: sel =>
    (trendTraceFor t c).bind (fun os =>
      (trendTraces t sel).map (fun rest => os.toList ++ rest))

/-- The assembled chart: the raw traces of `px.line`, followed — when the
trend checkbox is on — by the appended dashed trend traces. -/
def assembleChart (t : List Observation) (sel : List String)
    (show_trend : Bool) : Option (List Series) :=
  if show_trend then (trendTraces t sel).map (fun ts => rawSeries t ++ ts)
  else some (rawSeries t)

/-- Outcome of one request cycle as the user sees it: the
"select at least one country" warning, no chart (the falsy-`data` branch),
a rendered chart, or the blanket `st.error` box of the top-level
`try/except`. -/
inductive Outcome where
  | warning
  | noChart
  | chart (series : List Series)
  | errorShown
deriving DecidableEq, Repr

/-- The main request cycle of `src/app.py` lines 106-160, given the selected
countries, the trend checkbox and the HTTP response the transport would
deliver.  A truthy fetch result that is not a records array makes
`pd.DataFrame`/column access raise, landing in the blanket handler. -/
def runPipeline (sel : List String) (show_trend : Bool)
    (resp : HttpResponse) : Outcome :=
  match sel with
  | [] => .warning
  | _ :: _ =>
    match fetch_wb_data resp with
    | none => .noChart
    | some (.records []) => .noChart
    | some (.records (r :: rs)) =>
      match normalize (r :: rs) with
      | none => .errorShown
      | some t =>
        match assembleChart t sel show_trend with
        | none => .errorShown
        | some ss => .chart ss
    | some (.other b) => if b then .errorShown else .noChart

/-- A memoization key of `@st.cache_data`: the exact argument tuple of
`fetch_wb_data(indicator, country, start_date, end_date)` — the country
list before any joining, in its given order. -/
structure FetchKey where
  indicator : String
  country : List String
  start_date : Int
  end_date : Int
deriving DecidableEq, Repr

/-- Lookup in the memoization cache, an association list keyed by the exact
argument tuple. -/
def cacheLookup : List (FetchKey × Option JsonElem) → FetchKey → Option (Option JsonElem)
  | [], _ => none
  | (k, v) :: rest, k' => if k' = k then some v else cacheLookup rest k'

/-- Result of one call through the cached fetch: the value handed back, the
cache afterwards, and how many outbound network calls the invocation made. -/
structure FetchStep where
  result : Option JsonElem
  cache : List (FetchKey × Option JsonElem)
  calls : Nat
deriving Repr

/-- The `@st.cache_data`-wrapped fetch (`src/app.py` line 17): on a cache
hit the memoized value is returned with no network call; on a miss the
transport (`net`) is consulted once, `fetch_wb_data` computes the value and
the cache gains the entry.  Entries are never removed or expired
(`st.cache_data` with no ttl and no max_entries). -/
def cachedFetch (net : FetchKey → HttpResponse)
    (cache : List (FetchKey × Option JsonElem)) (k : FetchKey) : FetchStep :=
  match cacheLookup cache k with
  | some v => ⟨v, cache, 0⟩
  | none =>
    let v := fetch_wb_data (net k)
    ⟨v, cache ++ [(k, v)], 1⟩

/-! ## Helper lemmas -/

theorem mem_firstUniques (l : List String) (a : String) :
    a ∈ firstUniques l ↔ a ∈ l := by
  induction l with
  | nil => simp [firstUniques]
  | cons c rest ih =>
    rw [firstUniques, List.mem_cons, List.mem_filter, ih, List.mem_cons]
    by_cases hac : a = c
    · simp [hac]
    · simp [hac]

theorem nodup_firstUniques (l : List String) : (firstUniques l).Nodup := by
  induction l with
  | nil => simp [firstUniques]
  | cons c rest ih =>
    rw [firstUniques]
    refine List.nodup_cons.mpr ⟨?_, ih.filter _⟩
    intro hmem
    have h2 := (List.mem_filter.mp hmem).2
    simp at h2

/-! ## C1 -/

/-- C1, amended: `fetch` returns the element at index 1 of the payload
whenever the status is exactly 200 and the payload has more than one
element — for a two-element envelope `[metadata, records]` that is the
records element — and returns NoData (`none`) when the status is not 200 or
the payload has at most one element; a NoData result makes the pipeline
render no chart and raise no fatal error. -/
theorem c1_fetch_behavior (resp : HttpResponse) (sel : List String) (st : Bool) :
    (resp.status_code = 200 ∧ 1 < resp.body.length →
      fetch_wb_data resp = resp.body.get? 1) ∧
    (¬(resp.status_code = 200 ∧ 1 < resp.body.length) →
      fetch_wb_data resp = none) ∧
    (∀ meta rs, resp.status_code = 200 → resp.body = [meta, JsonElem.records rs] →
      fetch_wb_data resp = some (JsonElem.records rs)) ∧
    (sel ≠ [] → fetch_wb_data resp = none →
      runPipeline sel st resp = Outcome.noChart) := by
  refine ⟨fun h => if_pos h, fun h => if_neg h, ?_, ?_⟩
  · intro meta rs hst hbody
    rw [fetch_wb_data, if_pos ⟨hst, by rw [hbody]; simp⟩, hbody]
    rfl
  · intro hsel hfetch
    match sel with
    | [] => exact absurd rfl hsel
    | c :: sel' => rw [runPipeline, hfetch]

/-- C1, counterexample to the claim as stated: a status-200 response whose
payload has three elements is not a two-element envelope, yet `fetch` does
not return NoData (it returns the element at index 1); and a response with
the success status 206 and a well-formed two-element envelope returns
NoData. -/
theorem c1_counterexample :
    fetch_wb_data ⟨200, [JsonElem.other true,
        JsonElem.records [⟨"USA", "2000", JsonVal.num 5⟩],
        JsonElem.other true]⟩ =
      some (JsonElem.records [⟨"USA", "2000", JsonVal.num 5⟩]) ∧
    ([JsonElem.other true,
        JsonElem.records [⟨"USA", "2000", JsonVal.num 5⟩],
        JsonElem.other true] : List JsonElem).length ≠ 2 ∧
    fetch_wb_data ⟨206, [JsonElem.other true,
        JsonElem.records [⟨"USA", "2000", JsonVal.num 5⟩]]⟩ = none := by
  refine ⟨?_, by decide, ?_⟩ <;> rfl

/-- C1, witness: the amended theorem applied to a concrete 404 response and
the selection `["USA"]`. -/
theorem c1_witness :
    (HttpResponse.status_code ⟨404, []⟩ = 200 ∧
        1 < (HttpResponse.body ⟨404, []⟩).length →
      fetch_wb_data ⟨404, []⟩ = (HttpResponse.body ⟨404, []⟩).get? 1) ∧
    (¬(HttpResponse.status_code ⟨404, []⟩ = 200 ∧
        1 < (HttpResponse.body ⟨404, []⟩).length) →
      fetch_wb_data ⟨404, []⟩ = none) ∧
    (∀ meta rs, HttpResponse.status_code ⟨404, []⟩ = 200 →
      HttpResponse.body ⟨404, []⟩ = [meta, JsonElem.records rs] →
      fetch_wb_data ⟨404, []⟩ = some (JsonElem.records rs)) ∧
    (["USA"] ≠ ([] : List String) → fetch_wb_data ⟨404, []⟩ = none →
      runPipeline ["USA"] true ⟨404, []⟩ = Outcome.noChart) :=
  c1_fetch_behavior ⟨404, []⟩ ["USA"] true

/-! ## C9 -/

/-- C9: a status-200 response carrying a well-formed envelope whose records
element is the empty list makes `fetch` return that empty list (not
`None`), yet the `if data:` truthiness guard cannot distinguish the two,
and the pipeline ends in the same no-chart outcome as a 404/NoData
response: no normalization, no trend computation, no error. -/
theorem c9_empty_records_like_nodata (sel : List String) (st : Bool)
    (meta : JsonElem) (hsel : sel ≠ []) :
    fetch_wb_data ⟨200, [meta, JsonElem.records []]⟩ =
      some (JsonElem.records []) ∧
    pyTruthy (some (JsonElem.records [])) = pyTruthy none ∧
    runPipeline sel st ⟨200, [meta, JsonElem.records []]⟩ =
      runPipeline sel st ⟨404, [meta, JsonElem.records []]⟩ ∧
    runPipeline sel st ⟨200, [meta, JsonElem.records []]⟩ = Outcome.noChart := by
  have hfetch : fetch_wb_data ⟨200, [meta, JsonElem.records []]⟩ =
      some (JsonElem.records []) := by
    rw [fetch_wb_data, if_pos ⟨rfl, by simp⟩]; rfl
  have hfetch404 : fetch_wb_data ⟨404, [meta, JsonElem.records []]⟩ = none := by
    rw [fetch_wb_data, if_neg]; rintro ⟨h, -⟩; exact absurd h (by simp)
  match sel with
  | [] => exact absurd rfl hsel
  | c :: sel' =>
    refine ⟨hfetch, rfl, ?_, ?_⟩
    · rw [runPipeline, hfetch, runPipeline, hfetch404]
    · rw [runPipeline, hfetch]

/-- C9, witness: the theorem at the selection `["USA"]` and a truthy
metadata element. -/
theorem c9_witness :
    fetch_wb_data ⟨200, [JsonElem.other true, JsonElem.records []]⟩ =
      some (JsonElem.records []) ∧
    pyTruthy (some (JsonElem.records [])) = pyTruthy none ∧
    runPipeline ["USA"] true ⟨200, [JsonElem.other true, JsonElem.records []]⟩ =
      runPipeline ["USA"] true ⟨404, [JsonElem.other true, JsonElem.records []]⟩ ∧
    runPipeline ["USA"] true ⟨200, [JsonElem.other true, JsonElem.records []]⟩ =
      Outcome.noChart :=
  c9_empty_records_like_nodata ["USA"] true (JsonElem.other true) (by decide)

/-! ## Normalization lemmas, C3, C5 -/

theorem normalize_isSome_iff (rs : List RawRecord) :
    (normalize rs).isSome = true ↔
      ∀ r ∈ rs, (parseDecimal r.date).isSome = true := by
  induction rs with
  | nil => simp [normalize]
  | cons r rs ih =>
    rw [normalize]
    cases hy : parseDecimal r.date with
    | none => simp [hy]
    | some y =>
      cases hn : normalize rs with
      | none => simp [hy, hn, ← ih]
      | some t => simp [hy, hn, ← ih]

theorem normalize_pointwise :
    ∀ (rs : List RawRecord) (t : List Observation), normalize rs = some t →
      t.length = rs.length ∧
      ∀ i (hr : i < rs.length) (ht : i < t.length),
        (t.get ⟨i, ht⟩).country = (rs.get ⟨i, hr⟩).countryiso3code ∧
        parseDecimal (rs.get ⟨i, hr⟩).date = some ((t.get ⟨i, ht⟩).year) ∧
        (t.get ⟨i, ht⟩).value = toNumericCoerce ((rs.get ⟨i, hr⟩).value) := by
  intro rs
  induction rs with
  | nil =>
    intro t h
    rw [normalize] at h
    cases h
    exact ⟨rfl, fun i hr => absurd hr (Nat.not_lt_zero i)⟩
  | cons r rs ih =>
    intro t h
    rw [normalize] at h
    cases hy : parseDecimal r.date with
    | none => rw [hy] at h; cases h
    | some y =>
      rw [hy] at h
      cases hn : normalize rs with
      | none => rw [hn] at h; cases h
      | some t' =>
        rw [hn] at h
        cases h
        obtain ⟨hlen, hpt⟩ := ih t' hn
        refine ⟨by simp [hlen], ?_⟩
        intro i hr ht
        match i with
        | 0 => exact ⟨rfl, hy, rfl⟩
        | Nat.succ j =>
          exact hpt j (Nat.lt_of_succ_lt_succ hr) (Nat.lt_of_succ_lt_succ ht)

/-- C3: an unparseable year field is fatal to the whole normalization,
while an absent or non-numeric value field (such as the string
"unavailable") is recovered per-row as the missing marker, every other row
normalizing normally with no exception. -/
theorem c3_year_fatal_value_recovered (rs : List RawRecord) :
    ((∃ r ∈ rs, parseDecimal r.date = none) → normalize rs = none) ∧
    ((∀ r ∈ rs, (parseDecimal r.date).isSome = true) →
      ∃ t, normalize rs = some t ∧ t.length = rs.length ∧
        ∀ i (hr : i < rs.length) (ht : i < t.length),
          (t.get ⟨i, ht⟩).value = toNumericCoerce ((rs.get ⟨i, hr⟩).value)) ∧
    toNumericCoerce (JsonVal.str "unavailable") = none := by
  refine ⟨?_, ?_, by rfl⟩
  · rintro ⟨r, hr, hbad⟩
    rw [← Option.not_isSome_iff_eq_none]
    intro hsome
    have := (normalize_isSome_iff rs).mp hsome r hr
    rw [hbad] at this
    exact Bool.false_ne_true this
  · intro hgood
    obtain ⟨t, ht⟩ := Option.isSome_iff_exists.mp
      ((normalize_isSome_iff rs).mpr hgood)
    obtain ⟨hlen, hpt⟩ := normalize_pointwise rs t ht
    exact ⟨t, ht, hlen, fun i hr ht' => (hpt i hr ht').2.2⟩

/-- C3, witness: a concrete batch with an unparseable year fails entirely,
and a concrete batch with the value "unavailable" in one row normalizes
with that row missing. -/
theorem c3_witness :
    normalize [⟨"USA", "2000", JsonVal.num 5⟩,
      ⟨"USA", "bad-year", JsonVal.num 6⟩] = none ∧
    (∃ t, normalize [⟨"USA", "2000", JsonVal.num 5⟩,
        ⟨"USA", "2001", JsonVal.str "unavailable"⟩] = some t ∧
      t.length = ([(⟨"USA", "2000", JsonVal.num 5⟩ : RawRecord),
        ⟨"USA", "2001", JsonVal.str "unavailable"⟩]).length ∧
      ∀ i (hr : i < ([(⟨"USA", "2000", JsonVal.num 5⟩ : RawRecord),
          ⟨"USA", "2001", JsonVal.str "unavailable"⟩]).length)
        (ht : i < t.length),
        (t.get ⟨i, ht⟩).value =
          toNumericCoerce ((([(⟨"USA", "2000", JsonVal.num 5⟩ : RawRecord),
            ⟨"USA", "2001", JsonVal.str "unavailable"⟩]).get ⟨i, hr⟩).value)) :=
  ⟨(c3_year_fatal_value_recovered
      [⟨"USA", "2000", JsonVal.num 5⟩, ⟨"USA", "bad-year", JsonVal.num 6⟩]).1
      ⟨⟨"USA", "bad-year", JsonVal.num 6⟩, by decide, by decide⟩,
    (c3_year_fatal_value_recovered
      [⟨"USA", "2000", JsonVal.num 5⟩,
        ⟨"USA", "2001", JsonVal.str "unavailable"⟩]).2.1 (by decide)⟩

/-- C5: on a batch whose year fields all parse, normalization succeeds and
yields a table with one row per source record in source order — row `i`
carries record `i`'s country code, its parsed year and its coerced value
(a rational or the missing marker, never a raw string), with no sorting and
no deduplication, duplicates passing through unchanged. -/
theorem c5_normalize_shape (rs : List RawRecord)
    (h : ∀ r ∈ rs, (parseDecimal r.date).isSome = true) :
    ∃ t, normalize rs = some t ∧ t.length = rs.length ∧
      ∀ i (hr : i < rs.length) (ht : i < t.length),
        (t.get ⟨i, ht⟩).country = (rs.get ⟨i, hr⟩).countryiso3code ∧
        parseDecimal (rs.get ⟨i, hr⟩).date = some ((t.get ⟨i, ht⟩).year) ∧
        (t.get ⟨i, ht⟩).value = toNumericCoerce ((rs.get ⟨i, hr⟩).value) ∧
        ((t.get ⟨i, ht⟩).value = none ∨
          ∃ q : ℚ, (t.get ⟨i, ht⟩).value = some q) := by
  obtain ⟨t, ht⟩ := Option.isSome_iff_exists.mp ((normalize_isSome_iff rs).mpr h)
  obtain ⟨hlen, hpt⟩ := normalize_pointwise rs t ht
  refine ⟨t, ht, hlen, fun i hr ht' => ?_⟩
  obtain ⟨h1, h2, h3⟩ := hpt i hr ht'
  refine ⟨h1, h2, h3, ?_⟩
  cases hv : (t.get ⟨i, ht'⟩).value with
  | none => exact Or.inl rfl
  | some q => exact Or.inr ⟨q, rfl⟩

/-- C5, witness: the claim at a concrete three-record batch containing a
numeric value, the string value "unavailable" and a duplicated
(country, year) row. -/
theorem c5_witness :
    (∀ r ∈ [(⟨"USA", "2000", JsonVal.num 5⟩ : RawRecord),
        ⟨"USA", "2001", JsonVal.str "unavailable"⟩,
        ⟨"USA", "2000", JsonVal.num 5⟩],
      (parseDecimal r.date).isSome = true) ∧
    (∃ t, normalize [⟨"USA", "2000", JsonVal.num 5⟩,
        ⟨"USA", "2001", JsonVal.str "unavailable"⟩,
        ⟨"USA", "2000", JsonVal.num 5⟩] = some t ∧
      t.length = ([(⟨"USA", "2000", JsonVal.num 5⟩ : RawRecord),
        ⟨"USA", "2001", JsonVal.str "unavailable"⟩,
        ⟨"USA", "2000", JsonVal.num 5⟩]).length ∧
      ∀ i (hr : i < ([(⟨"USA", "2000", JsonVal.num 5⟩ : RawRecord),
          ⟨"USA", "2001", JsonVal.str "unavailable"⟩,
          ⟨"USA", "2000", JsonVal.num 5⟩]).length)
        (ht : i < t.length),
        (t.get ⟨i, ht⟩).country =
          ((([(⟨"USA", "2000", JsonVal.num 5⟩ : RawRecord),
            ⟨"USA", "2001", JsonVal.str "unavailable"⟩,
            ⟨"USA", "2000", JsonVal.num 5⟩]).get ⟨i, hr⟩).countryiso3code) ∧
        parseDecimal ((([(⟨"USA", "2000", JsonVal.num 5⟩ : RawRecord),
            ⟨"USA", "2001", JsonVal.str "unavailable"⟩,
            ⟨"USA", "2000", JsonVal.num 5⟩]).get ⟨i, hr⟩).date) =
          some ((t.get ⟨i, ht⟩).year) ∧
        (t.get ⟨i, ht⟩).value =
          toNumericCoerce ((([(⟨"USA", "2000", JsonVal.num 5⟩ : RawRecord),
            ⟨"USA", "2001", JsonVal.str "unavailable"⟩,
            ⟨"USA", "2000", JsonVal.num 5⟩]).get ⟨i, hr⟩).value) ∧
        ((t.get ⟨i, ht⟩).value = none ∨
          ∃ q : ℚ, (t.get ⟨i, ht⟩).value = some q)) :=
  ⟨by decide, c5_normalize_shape
    [⟨"USA", "2000", JsonVal.num 5⟩,
     ⟨"USA", "2001", JsonVal.str "unavailable"⟩,
     ⟨"USA", "2000", JsonVal.num 5⟩] (by decide)⟩

/-! ## Trend lemmas, C2, C7 -/

theorem trendTraceFor_spec (t : List Observation) (c : String) (os : Option Series)
    (h : trendTraceFor t c = some os) :
    ∀ s ∈ os.toList, s.key = c ∧ (estimate t c).isSome = true ∧
      ∃ lab, countryLabel c = some lab ∧ s.name = lab ++ " trend" ∧
        ∃ tl, estimate t c = some tl ∧ s.pts = tl.points ∧ s.dashed = true := by
  intro s hs
  rw [trendTraceFor] at h
  cases he : estimate t c with
  | none => rw [he] at h; cases h; cases hs
  | some tl =>
    rw [he] at h
    cases hl : countryLabel c with
    | none => rw [hl] at h; simp at h
    | some lab =>
      rw [hl] at h
      simp only [Option.map_some'] at h
      cases h
      simp only [Option.toList_some, List.mem_singleton] at hs
      subst hs
      exact ⟨rfl, rfl, lab, rfl, rfl, tl, rfl, rfl, rfl⟩

theorem trendTraces_mem_spec (t : List Observation) :
    ∀ (sel : List String) (ss : List Series), trendTraces t sel = some ss →
      ∀ s ∈ ss, s.key ∈ sel ∧ (estimate t s.key).isSome = true ∧
        ∃ lab, countryLabel s.key = some lab ∧ s.name = lab ++ " trend" := by
  intro sel
  induction sel with
  | nil =>
    intro ss h s hs
    rw [trendTraces] at h
    cases h
    cases hs
  | cons c rest ih =>
    intro ss h s hs
    rw [trendTraces] at h
    cases h1 : trendTraceFor t c with
    | none => rw [h1] at h; cases h
    | some os =>
      rw [h1] at h
      simp only [Option.some_bind] at h
      cases h2 : trendTraces t rest with
      | none => rw [h2] at h; cases h
      | some rest' =>
        rw [h2] at h
        simp only [Option.map_some'] at h
        cases h
        rcases List.mem_append.mp hs with hos | hrest
        · obtain ⟨hkey, hest, lab, hlab, hname, -⟩ :=
            trendTraceFor_spec t c os h1 s hos
          subst hkey
          exact ⟨List.mem_cons_self _ _, hest, lab, hlab, hname⟩
        · obtain ⟨hkey, hest, hlab⟩ := ih rest' h2 s hrest
          exact ⟨List.mem_cons_of_mem _ hkey, hest, hlab⟩

/-- C2, amended: on a table whose rows for country `c` are exactly one row
with year `y ≠ 0` and value `v` (missing treated as 0), the trend block
raises no error (numpy only emits a RankWarning) and returns a trend line
with exactly one predicted point, whose year is `y` and whose predicted
value is exactly `v`; but the fitted line is not horizontal: numpy's
least-squares on the underdetermined single-point system returns the
minimum-norm solution, slope `v / (2y)` and intercept `v / 2`, whose line
passes through `(y, v)`. -/
theorem c2_single_row_trend (t : List Observation) (c : String) (o : Observation)
    (h : rowsFor t c = [o]) (hy : o.year ≠ 0) :
    estimate t c =
      some ⟨c, some (o.value.getD 0 / (2 * o.year), o.value.getD 0 / 2),
        [(o.year, some (o.value.getD 0))]⟩ := by
  have hfit : fitPoints t c = [(o.year, o.value.getD 0)] := by
    rw [fitPoints, h]; rfl
  have hpoly : polyfit1 (fitPoints t c) =
      some (o.value.getD 0 / (2 * o.year), o.value.getD 0 / 2) := by
    rw [hfit, polyfit1]
    simp [hy]
  have harith : o.value.getD 0 / (2 * o.year) * o.year + o.value.getD 0 / 2 =
      o.value.getD 0 := by
    field_simp
    ring
  rw [estimate, h, hpoly]
  simp only [List.map_cons, List.map_nil, predict, harith]

/-- C2, counterexample to the claim as stated: on the single-row table for
"USA" with year 2000 and value 5, the fitted slope is 1/800, not 0 — the
trend line is not horizontal. -/
theorem c2_counterexample :
    (estimate [⟨"USA", 2000, some 5⟩] "USA").map TrendLine.fit =
      some (some ((1 : ℚ) / 800, (5 : ℚ) / 2)) ∧
    ((1 : ℚ) / 800) ≠ 0 := by
  refine ⟨?_, by norm_num⟩
  have h : rowsFor [⟨"USA", 2000, some 5⟩] "USA" =
      [(⟨"USA", 2000, some 5⟩ : Observation)] := by decide
  have hfit : fitPoints [⟨"USA", 2000, some 5⟩] "USA" =
      [((2000 : ℚ), (5 : ℚ))] := by
    rw [fitPoints, h]; rfl
  rw [estimate, h, hfit, polyfit1]
  simp only [Option.map_some']
  norm_num

/-- C2, witness: the amended theorem at the single-row table for "USA"
with year 2000 and value 5. -/
theorem c2_witness :
    rowsFor [⟨"USA", 2000, some 5⟩] "USA" =
      [(⟨"USA", 2000, some 5⟩ : Observation)] ∧
    ((⟨"USA", 2000, some 5⟩ : Observation).year ≠ 0) ∧
    estimate [⟨"USA", 2000, some 5⟩] "USA" =
      some ⟨"USA",
        some ((⟨"USA", 2000, some 5⟩ : Observation).value.getD 0 /
            (2 * (⟨"USA", 2000, some 5⟩ : Observation).year),
          (⟨"USA", 2000, some 5⟩ : Observation).value.getD 0 / 2),
        [((⟨"USA", 2000, some 5⟩ : Observation).year,
          some ((⟨"USA", 2000, some 5⟩ : Observation).value.getD 0))]⟩ :=
  ⟨by decide, by decide,
    c2_single_row_trend [⟨"USA", 2000, some 5⟩] "USA" ⟨"USA", 2000, some 5⟩
      (by decide) (by decide)⟩

/-- C7: when no rows of the table match a country, the trend estimator
returns NoTrend (`none`) — it never fabricates a zero-slope line — and the
assembled trend traces contain no series generated from that country. -/
theorem c7_no_trend_on_empty (t : List Observation) (c : String)
    (sel : List String) (h : rowsFor t c = []) :
    estimate t c = none ∧
    ∀ ss, trendTraces t sel = some ss → ∀ s ∈ ss, s.key ≠ c := by
  have hest : estimate t c = none := by rw [estimate, h]
  refine ⟨hest, ?_⟩
  intro ss hss s hs heq
  have hsome := (trendTraces_mem_spec t sel ss hss s hs).2.1
  rw [heq, hest] at hsome
  simp at hsome

/-- C7, witness: the theorem at a table holding only a "CHN" row, with
"USA" among the selected countries. -/
theorem c7_witness :
    rowsFor [⟨"CHN", 2000, some 5⟩] "USA" = [] ∧
    (estimate [⟨"CHN", 2000, some 5⟩] "USA" = none ∧
      ∀ ss, trendTraces [⟨"CHN", 2000, some 5⟩] ["USA", "CHN"] = some ss →
        ∀ s ∈ ss, s.key ≠ "USA") :=
  ⟨by decide,
    c7_no_trend_on_empty [⟨"CHN", 2000, some 5⟩] "USA" ["USA", "CHN"] (by decide)⟩

/-! ## Chart assembly: C6, C10 -/

theorem trendTraces_length (t : List Observation) :
    ∀ sel : List String,
      (∀ c ∈ sel, (estimate t c).isSome = true → (countryLabel c).isSome = true) →
      ∃ ts, trendTraces t sel = some ts ∧
        ts.length = (sel.filter (fun c => (estimate t c).isSome)).length := by
  intro sel
  induction sel with
  | nil => exact fun _ => ⟨[], rfl, rfl⟩
  | cons c rest ih =>
    intro hlab
    obtain ⟨ts, hts, hlen⟩ := ih (fun c' hc' => hlab c' (List.mem_cons_of_mem _ hc'))
    cases he : estimate t c with
    | none =>
      refine ⟨ts, ?_, ?_⟩
      · rw [trendTraces, trendTraceFor, he]
        simp only [Option.some_bind, hts, Option.map_some', Option.toList_none,
          List.nil_append]
      · rw [hlen, List.filter_cons]
        simp [he]
    | some tl =>
      have hl := hlab c (List.mem_cons_self _ _) (by rw [he]; rfl)
      obtain ⟨lab, hlab'⟩ := Option.isSome_iff_exists.mp hl
      refine ⟨⟨c, lab ++ " trend", tl.points, true⟩ :: ts, ?_, ?_⟩
      · rw [trendTraces, trendTraceFor, he, hlab']
        simp only [Option.map_some', Option.some_bind, hts, Option.toList_some,
          List.singleton_append]
      · rw [List.filter_cons]
        simp [he, hlen]

/-- C6: the assembled chart holds exactly one raw series per distinct
country present in the table (the distinct-country list has no duplicates
and contains exactly the countries of the table's rows) plus — when the
trend checkbox is on — exactly one additional trend series per selected
country with a trend line, and nothing else; with the checkbox off it holds
exactly the raw series. -/
theorem c6_series_counts (t : List Observation) (sel : List String)
    (hlab : ∀ c ∈ sel, (estimate t c).isSome = true →
      (countryLabel c).isSome = true) :
    ∃ ss, assembleChart t sel true = some ss ∧
      ss.length = (distinctCountries t).length
        + (sel.filter (fun c => (estimate t c).isSome)).length ∧
      assembleChart t sel false = some (rawSeries t) ∧
      (rawSeries t).length = (distinctCountries t).length ∧
      (distinctCountries t).Nodup ∧
      (∀ c, c ∈ distinctCountries t ↔ ∃ o ∈ t, o.country = c) := by
  obtain ⟨ts, hts, hlen⟩ := trendTraces_length t sel hlab
  refine ⟨rawSeries t ++ ts, ?_, ?_, rfl, ?_, nodup_firstUniques _, ?_⟩
  · rw [assembleChart, if_pos rfl, hts, Option.map_some']
  · rw [List.length_append, hlen, rawSeries, List.length_map]
  · rw [rawSeries, List.length_map]
  · intro c
    rw [distinctCountries, mem_firstUniques, List.mem_map]

/-- C6, witness: the theorem at a two-country table with the selection
`["USA", "CHN"]` — "CHN" has no rows, so only "USA" gets a trend series. -/
theorem c6_witness :
    (∀ c ∈ ["USA", "CHN"],
      (estimate [(⟨"USA", 2000, some 5⟩ : Observation),
        ⟨"FRA", 2001, some 3⟩] c).isSome = true →
      (countryLabel c).isSome = true) ∧
    (∃ ss, assembleChart [⟨"USA", 2000, some 5⟩, ⟨"FRA", 2001, some 3⟩]
        ["USA", "CHN"] true = some ss ∧
      ss.length =
        (distinctCountries [(⟨"USA", 2000, some 5⟩ : Observation),
          ⟨"FRA", 2001, some 3⟩]).length
        + ((["USA", "CHN"]).filter
            (fun c => (estimate [(⟨"USA", 2000, some 5⟩ : Observation),
              ⟨"FRA", 2001, some 3⟩] c).isSome)).length ∧
      assembleChart [⟨"USA", 2000, some 5⟩, ⟨"FRA", 2001, some 3⟩]
        ["USA", "CHN"] false =
          some (rawSeries [⟨"USA", 2000, some 5⟩, ⟨"FRA", 2001, some 3⟩]) ∧
      (rawSeries [(⟨"USA", 2000, some 5⟩ : Observation),
        ⟨"FRA", 2001, some 3⟩]).length =
        (distinctCountries [(⟨"USA", 2000, some 5⟩ : Observation),
          ⟨"FRA", 2001, some 3⟩]).length ∧
      (distinctCountries [(⟨"USA", 2000, some 5⟩ : Observation),
        ⟨"FRA", 2001, some 3⟩]).Nodup ∧
      (∀ c, c ∈ distinctCountries [(⟨"USA", 2000, some 5⟩ : Observation),
          ⟨"FRA", 2001, some 3⟩] ↔
        ∃ o ∈ [(⟨"USA", 2000, some 5⟩ : Observation), ⟨"FRA", 2001, some 3⟩],
          o.country = c)) :=
  ⟨by decide,
    c6_series_counts [⟨"USA", 2000, some 5⟩, ⟨"FRA", 2001, some 3⟩]
      ["USA", "CHN"] (by decide)⟩

/-- C10: every emitted trend series comes from a selected country whose
filtered rows yield a trend line, and is labeled through the static country
catalog; raw series are keyed by the country code field of the records, so
a country present in the table but absent from the selection gets a raw
series and never a trend series. -/
theorem c10_trend_only_selected (t : List Observation) (sel : List String)
    (ss : List Series) (h : trendTraces t sel = some ss) :
    (∀ s ∈ ss, s.key ∈ sel ∧ (estimate t s.key).isSome = true ∧
      ∃ lab, countryLabel s.key = some lab ∧ s.name = lab ++ " trend") ∧
    (∀ c ∈ distinctCountries t,
      ∃ s ∈ rawSeries t, s.key = c ∧ s.name = c ∧ s.dashed = false) ∧
    (∀ c, c ∉ sel → ∀ s ∈ ss, s.key ≠ c) := by
  refine ⟨trendTraces_mem_spec t sel ss h, ?_, ?_⟩
  · intro c hc
    exact ⟨⟨c, c, (rowsFor t c).map (fun o => (o.year, o.value)), false⟩,
      List.mem_map.mpr ⟨c, hc, rfl⟩, rfl, rfl, rfl⟩
  · intro c hc s hs heq
    have hkey := (trendTraces_mem_spec t sel ss h s hs).1
    rw [heq] at hkey
    exact hc hkey

/-- C10, witness: a table holding only a "FRA" row with the selection
`["USA"]` — "FRA" gets a raw series, and the trend traces are empty. -/
theorem c10_witness :
    trendTraces [⟨"FRA", 2001, some 3⟩] ["USA"] = some [] ∧
    ((∀ s ∈ ([] : List Series), s.key ∈ ["USA"] ∧
      (estimate [(⟨"FRA", 2001, some 3⟩ : Observation)] s.key).isSome = true ∧
      ∃ lab, countryLabel s.key = some lab ∧ s.name = lab ++ " trend") ∧
    (∀ c ∈ distinctCountries [(⟨"FRA", 2001, some 3⟩ : Observation)],
      ∃ s ∈ rawSeries [(⟨"FRA", 2001, some 3⟩ : Observation)],
        s.key = c ∧ s.name = c ∧ s.dashed = false) ∧
    (∀ c, c ∉ ["USA"] → ∀ s ∈ ([] : List Series), s.key ≠ c)) :=
  ⟨by decide,
    c10_trend_only_selected [⟨"FRA", 2001, some 3⟩] ["USA"] [] (by decide)⟩

/-! ## Frame property of the fillna(0) substitution: C8 -/

/-- The table with every missing value replaced by `0` — the substitution
`fillna(0)` performs on the value column. -/
def fillZero (t : List Observation) : List Observation :=
  t.map (fun o => ⟨o.country, o.year, some (o.value.getD 0)⟩)

theorem rowsFor_fillZero (t : List Observation) (c : String) :
    rowsFor (fillZero t) c = fillZero (rowsFor t c) := by
  induction t with
  | nil => rfl
  | cons o rest ih =>
    simp only [fillZero, List.map_cons, rowsFor, List.filter_cons] at *
    by_cases h : o.country = c
    · simp [h, ih]
    · simp [h, ih]

theorem fitPoints_fillZero (t : List Observation) (c : String) :
    fitPoints (fillZero t) c = fitPoints t c := by
  rw [fitPoints, fitPoints, rowsFor_fillZero, fillZero, List.map_map]
  rfl

theorem estimate_fillZero (t : List Observation) (c : String) :
    estimate (fillZero t) c = estimate t c := by
  rw [estimate, estimate, rowsFor_fillZero, fitPoints_fillZero]
  cases h : rowsFor t c with
  | nil => rfl
  | cons o rest =>
    simp only [fillZero, List.map_cons, List.map_map]
    rfl

/-- C8: replacing missing values by `0` in the table changes no trend
estimate — inside the fit a missing value already counts as `0` — while the
raw series keep the original values, missing staying missing: the raw
part of the trend-enabled chart is exactly the raw-only chart. -/
theorem c8_missing_zero_only_in_fit (t : List Observation) (sel : List String)
    (c : String) :
    estimate (fillZero t) c = estimate t c ∧
    (∀ s ∈ rawSeries t,
      s.pts = (rowsFor t s.key).map (fun o => (o.year, o.value))) ∧
    (∀ ss, assembleChart t sel true = some ss →
      ss.take (rawSeries t).length = rawSeries t) ∧
    assembleChart t sel false = some (rawSeries t) := by
  refine ⟨estimate_fillZero t c, ?_, ?_, rfl⟩
  · intro s hs
    rw [rawSeries] at hs
    obtain ⟨c', hc', rfl⟩ := List.mem_map.mp hs
    rfl
  · intro ss hss
    rw [assembleChart, if_pos rfl] at hss
    cases hts : trendTraces t sel with
    | none => rw [hts] at hss; cases hss
    | some ts =>
      rw [hts, Option.map_some'] at hss
      cases hss
      exact List.take_left _ _

/-- C8, witness: a table with one missing "USA" value and the selection
`["CHN"]` (no rows, hence no trend trace): the chart's raw series keeps the
missing value, and zero-filling the table leaves the estimates unchanged. -/
theorem c8_witness :
    estimate (fillZero [⟨"USA", 2000, none⟩]) "CHN" =
      estimate [⟨"USA", 2000, none⟩] "CHN" ∧
    (∀ s ∈ rawSeries [(⟨"USA", 2000, none⟩ : Observation)],
      s.pts = (rowsFor [(⟨"USA", 2000, none⟩ : Observation)] s.key).map
        (fun o => (o.year, o.value))) ∧
    assembleChart [⟨"USA", 2000, none⟩] ["CHN"] true =
      some [⟨"USA", "USA", [((2000 : ℚ), (none : Option ℚ))], false⟩] ∧
    ([(⟨"USA", "USA", [((2000 : ℚ), (none : Option ℚ))], false⟩ : Series)]).take
        (rawSeries [(⟨"USA", 2000, none⟩ : Observation)]).length =
      rawSeries [(⟨"USA", 2000, none⟩ : Observation)] :=
  have hchart : assembleChart [⟨"USA", 2000, none⟩] ["CHN"] true =
      some [⟨"USA", "USA", [((2000 : ℚ), (none : Option ℚ))], false⟩] := by decide
  ⟨(c8_missing_zero_only_in_fit [⟨"USA", 2000, none⟩] ["CHN"] "CHN").1,
    (c8_missing_zero_only_in_fit [⟨"USA", 2000, none⟩] ["CHN"] "CHN").2.1,
    hchart,
    (c8_missing_zero_only_in_fit [⟨"USA", 2000, none⟩] ["CHN"] "CHN").2.2.1
      _ hchart⟩

/-! ## Memoization: C4 -/

theorem cacheLookup_append_of_some :
    ∀ (cache l : List (FetchKey × Option JsonElem)) (k : FetchKey)
      (v : Option JsonElem),
      cacheLookup cache k = some v → cacheLookup (cache ++ l) k = some v := by
  intro cache
  induction cache with
  | nil => intro l k v h; cases h
  | cons p rest ih =>
    intro l k v h
    obtain ⟨k1, v1⟩ := p
    rw [List.cons_append, cacheLookup]
    rw [cacheLookup] at h
    by_cases hk : k = k1
    · rwa [if_pos hk] at h ⊢
    · rw [if_neg hk] at h ⊢
      exact ih l k v h

theorem cacheLookup_append_self :
    ∀ (cache : List (FetchKey × Option JsonElem)) (k : FetchKey)
      (v : Option JsonElem),
      cacheLookup cache k = none → cacheLookup (cache ++ [(k, v)]) k = some v := by
  intro cache
  induction cache with
  | nil => intro k v _; exact if_pos rfl
  | cons p rest ih =>
    intro k v h
    obtain ⟨k1, v1⟩ := p
    rw [List.cons_append, cacheLookup]
    rw [cacheLookup] at h
    by_cases hk : k = k1
    · rw [if_pos hk] at h; cases h
    · rw [if_neg hk] at h ⊢
      exact ih k v h

/-- C4: calling the memoized fetch twice with the identical argument tuple
returns the identical result, the second call makes no network call, at
most one network call happens across the two, and no existing cache entry
is ever removed or changed by a fetch — the memo has no TTL and is never
invalidated. -/
theorem c4_memoization (net : FetchKey → HttpResponse)
    (cache : List (FetchKey × Option JsonElem)) (k : FetchKey) :
    (cachedFetch net (cachedFetch net cache k).cache k).result =
      (cachedFetch net cache k).result ∧
    (cachedFetch net (cachedFetch net cache k).cache k).calls = 0 ∧
    (cachedFetch net cache k).calls +
      (cachedFetch net (cachedFetch net cache k).cache k).calls ≤ 1 ∧
    (∀ k' v, cacheLookup cache k' = some v →
      cacheLookup (cachedFetch net cache k).cache k' = some v) := by
  cases h : cacheLookup cache k with
  | some v =>
    have h1 : cachedFetch net cache k = ⟨v, cache, 0⟩ := by rw [cachedFetch, h]
    refine ⟨?_, ?_, ?_, ?_⟩
    · simp [h1]
    · simp [h1]
    · simp [h1]
    · intro k' v' hv
      simpa [h1] using hv
  | none =>
    have h1 : cachedFetch net cache k =
        ⟨fetch_wb_data (net k), cache ++ [(k, fetch_wb_data (net k))], 1⟩ := by
      rw [cachedFetch, h]
    have h2 : cacheLookup (cache ++ [(k, fetch_wb_data (net k))]) k =
        some (fetch_wb_data (net k)) := cacheLookup_append_self cache k _ h
    have h3 : cachedFetch net (cache ++ [(k, fetch_wb_data (net k))]) k =
        ⟨fetch_wb_data (net k), cache ++ [(k, fetch_wb_data (net k))], 0⟩ := by
      rw [cachedFetch, h2]
    refine ⟨?_, ?_, ?_, ?_⟩
    · simp [h1, h3]
    · simp [h1, h3]
    · simp [h1, h3]
    · intro k' v' hv
      simp only [h1]
      exact cacheLookup_append_of_some cache _ k' v' hv

/-- C4, witness: the theorem at a concrete transport, a cache already
holding one other key, and a fresh key — the first call goes out once, the
second is served from the memo, and the pre-existing entry survives. -/
theorem c4_witness :
    (cachedFetch (fun _ => ⟨404, []⟩)
        [(⟨"SL.UEM.TOTL.ZS", ["CHN"], 2000, 2001⟩, none)]
        ⟨"NY.GDP.MKTP.CD", ["USA"], 2005, 2025⟩).calls = 1 ∧
    cacheLookup [(⟨"SL.UEM.TOTL.ZS", ["CHN"], 2000, 2001⟩, none)]
      ⟨"SL.UEM.TOTL.ZS", ["CHN"], 2000, 2001⟩ = some none ∧
    ((cachedFetch (fun _ => ⟨404, []⟩)
        (cachedFetch (fun _ => ⟨404, []⟩)
          [(⟨"SL.UEM.TOTL.ZS", ["CHN"], 2000, 2001⟩, none)]
          ⟨"NY.GDP.MKTP.CD", ["USA"], 2005, 2025⟩).cache
        ⟨"NY.GDP.MKTP.CD", ["USA"], 2005, 2025⟩).result =
      (cachedFetch (fun _ => ⟨404, []⟩)
        [(⟨"SL.UEM.TOTL.ZS", ["CHN"], 2000, 2001⟩, none)]
        ⟨"NY.GDP.MKTP.CD", ["USA"], 2005, 2025⟩).result) ∧
    ((cachedFetch (fun _ => ⟨404, []⟩)
        (cachedFetch (fun _ => ⟨404, []⟩)
          [(⟨"SL.UEM.TOTL.ZS", ["CHN"], 2000, 2001⟩, none)]
          ⟨"NY.GDP.MKTP.CD", ["USA"], 2005, 2025⟩).cache
        ⟨"NY.GDP.MKTP.CD", ["USA"], 2005, 2025⟩).calls = 0) ∧
    cacheLookup (cachedFetch (fun _ => ⟨404, []⟩)
        [(⟨"SL.UEM.TOTL.ZS", ["CHN"], 2000, 2001⟩, none)]
        ⟨"NY.GDP.MKTP.CD", ["USA"], 2005, 2025⟩).cache
      ⟨"SL.UEM.TOTL.ZS", ["CHN"], 2000, 2001⟩ = some none :=
  have hbase : cacheLookup [(⟨"SL.UEM.TOTL.ZS", ["CHN"], 2000, 2001⟩, none)]
      ⟨"SL.UEM.TOTL.ZS", ["CHN"], 2000, 2001⟩ = some none := by decide
  ⟨by decide, hbase,
    (c4_memoization (fun _ => ⟨404, []⟩)
      [(⟨"SL.UEM.TOTL.ZS", ["CHN"], 2000, 2001⟩, none)]
      ⟨"NY.GDP.MKTP.CD", ["USA"], 2005, 2025⟩).1,
    (c4_memoization (fun _ => ⟨404, []⟩)
      [(⟨"SL.UEM.TOTL.ZS", ["CHN"], 2000, 2001⟩, none)]
      ⟨"NY.GDP.MKTP.CD", ["USA"], 2005, 2025⟩).2.1,
    (c4_memoization (fun _ => ⟨404, []⟩)
      [(⟨"SL.UEM.TOTL.ZS", ["CHN"], 2000, 2001⟩, none)]
      ⟨"NY.GDP.MKTP.CD", ["USA"], 2005, 2025⟩).2.2.2
      ⟨"SL.UEM.TOTL.ZS", ["CHN"], 2000, 2001⟩ none hbase⟩

end EconDash
